import Mathlib

/-
Verification of the retrieval-augmented query pipeline of the
BI-coding-challenge repository.

The embedded code comes from `src/backend/rag.py` (class `RAGEngine`) and
`src/backend/api.py` (endpoint `analyze_query`).  Parts of the pipeline that
the repository delegates to third-party libraries (the text splitter, the
FAISS vector store, the LLM and the enrichment analyses) are not present in
the repository's source; those parts are modelled from the specification and
each such definition carries a doc comment starting with
"Modelled from the spec:".
-/

namespace RagSpec

/-- A langchain `Document` as used by `rag.py`: `page_content` plus metadata.
The code reads only the `"source"` metadata key
(`doc.metadata.get("source", "Unknown")`, rag.py lines 65 and 122), so the
metadata dict is modelled as that one optional key. -/
structure LCDocument where
  page_content : String
  metadata_source : Option String
  deriving DecidableEq, Repr, Inhabited

/-- The value `self.qa_chain({"query": query})` returns in
`RAGEngine.process_query` (rag.py line 115): a dict with the generated text
under `"result"` and the retrieved documents under `"source_documents"`. -/
structure ChainResult where
  result : String
  source_documents : List LCDocument
  deriving DecidableEq, Repr

/-- One element of the `"sources"` list built by `RAGEngine.process_query`
(rag.py lines 119-126): `{"text": ..., "document": ..., "confidence": 0.95}`. -/
structure RagSource where
  text : String
  document : String
  confidence : ℚ
  deriving DecidableEq, Repr

/-- The dict returned by `RAGEngine.process_query` (rag.py lines 117-127).
The Python dict literal has exactly the keys `"answer"` and `"sources"`; the
optional field `confidence` models the presence or absence of a
`"confidence"` key in that dict (the API layer later reads it with
`result.get("confidence", 0.95)`, api.py line 99), and `process_query`
always leaves it absent (`none`). -/
structure ProcessResult where
  answer : String
  sources : List RagSource
  confidence : Option ℚ
  deriving DecidableEq, Repr

/-- `RAGEngine.process_query` (rag.py lines 113-127).  The engine's
`self.qa_chain` is passed explicitly as the function `qa_chain`; the
`filters` argument is accepted (modelled as an optional list of allowed
document names) and, exactly as in the source, never used.  The body is the
literal translation of

    result = self.qa_chain({"query": query})
    return {"answer": result["result"],
            "sources": [{"text": doc.page_content,
                         "document": doc.metadata.get("source", "Unknown"),
                         "confidence": 0.95} for doc in result["source_documents"]]}
-/
def process_query (qa_chain : String → ChainResult) (query : String)
    (filters : Option (List String)) : ProcessResult :=
  let result := qa_chain query
  { answer := result.result
    sources := result.source_documents.map (fun doc =>
      { text := doc.page_content
        document := doc.metadata_source.getD "Unknown"
        confidence := (95 : ℚ) / 100 })
    confidence := none }

/-- Modelled from the spec: a query is blank when it is "empty or
whitespace-only" (spec §4.2 error conditions; the source code of
`process_query` contains no such check, so the predicate comes from the
spec's words). -/
def is_blank (s : String) : Bool :=
  s.toList.all (fun c => c == ' ' || c == '\t' || c == '\n' || c == '\r')

/-- One element of the `"text"/"document"/"confidence"` dicts built by
`RAGEngine.get_relevant_context` (rag.py lines 62-69). -/
structure ContextItem where
  text : String
  document : String
  confidence : ℚ
  deriving DecidableEq, Repr, Inhabited

/-- `RAGEngine.get_relevant_context` (rag.py lines 60-69).  The vector
store's `similarity_search_with_score` is passed explicitly as the function
`search`; the body is the literal translation of

    docs = self.vector_store.similarity_search_with_score(query, k=k)
    return [{"text": doc[0].page_content,
             "document": doc[0].metadata.get("source", "Unknown"),
             "confidence": 1 - doc[1]} for doc in docs]
-/
def get_relevant_context (search : String → ℕ → List (LCDocument × ℚ))
    (query : String) (k : ℕ) : List ContextItem :=
  (search query k).map (fun doc =>
    { text := doc.1.page_content
      document := doc.1.metadata_source.getD "Unknown"
      confidence := 1 - doc.2 })

/-- The prompt template of `RAGEngine.initialize_qa_chain` (rag.py lines
73-93), verbatim.  The Python source is a triple-quoted literal whose
continuation lines carry eight spaces of indentation; those spaces are part
of the string and are reproduced here.  Apostrophes are written with the
escape `\x27`. -/
def prompt_template : String :=
  "You are an AI assistant with expertise in market research analysis. You can engage in general conversation and answer questions about any topic, while also having specific knowledge about market research reports when relevant.\n" ++
  "\n" ++
  "        For market research related questions, use the following context:\n" ++
  "        Context: {context}\n" ++
  "\n" ++
  "        Question: {question}\n" ++
  "\n" ++
  "        If the question is a general query (like greetings, casual conversation, or non-market research topics):\n" ++
  "        - Respond naturally and appropriately\n" ++
  "        - Engage in friendly conversation\n" ++
  "        - Don\x27t force market research context if it\x27s not relevant\n" ++
  "\n" ++
  "        If the question is about market research:\n" ++
  "        1. Directly address the question using the provided context\n" ++
  "        2. Cite specific information from the sources\n" ++
  "        3. Highlight key insights and trends\n" ++
  "        4. Note any limitations in the available information\n" ++
  "\n" ++
  "        Remember: You can handle both casual conversation and detailed market analysis. Choose the appropriate response style based on the question type.\n" ++
  "\n" ++
  "        Answer:"

/-- Scanner collecting the `\x7bname\x7d` placeholders of a template, in
order of occurrence.  The first argument is `some acc` while inside an open
placeholder (accumulated characters in reverse), `none` outside one.  This
models which `input_variables` a langchain `PromptTemplate` interpolates
(rag.py lines 95-98 declare them as `["context", "question"]`). -/
def template_variables_aux : Option (List Char) → List Char → List (List Char)
  | _, [] => []
  | none, '{' :: rest => template_variables_aux (some []) rest
  | none, _ :: rest => template_variables_aux none rest
  | some acc, '}' :: rest => acc.reverse :: template_variables_aux none rest
  | some acc, c :: rest => template_variables_aux (some (c :: acc)) rest

/-- The placeholder names a template interpolates, in order. -/
def template_variables (s : String) : List String :=
  (template_variables_aux none s.toList).map (fun l => String.mk l)

/-- Does the character list start with the given pattern? -/
def starts_with_list : List Char → List Char → Bool
  | _, [] => true
  | [], _ :: _ => false
  | c :: cs, p :: ps => c == p && starts_with_list cs ps

/-- Does the character list contain the pattern as a contiguous substring? -/
def contains_list : List Char → List Char → Bool
  | [], pat => pat.isEmpty
  | c :: rest, pat => starts_with_list (c :: rest) pat || contains_list rest pat

/-- Does the string contain the pattern as a contiguous substring? -/
def contains_str (s pat : String) : Bool :=
  contains_list s.toList pat.toList

/-- Does the string end with the given suffix?  Models Python's
`str.endswith` as used in `filename.endswith(".pdf")` (rag.py line 42);
defined over character lists so that it evaluates by `decide`. -/
def ends_with (s suf : String) : Bool :=
  starts_with_list s.toList.reverse suf.toList.reverse

/-- Modelled from the spec: interpolation of a prompt template ("a bounded
prompt with exactly two interpolated fields", spec §4.2).  Replaces
`\x7bcontext\x7d` by `ctx` and `\x7bquestion\x7d` by `q`; any other
placeholder is reproduced literally.  The first argument is the same
scanner state as in `template_variables_aux`. -/
def render_aux (ctx q : String) : Option (List Char) → List Char → List Char
  | _, [] => []
  | none, '{' :: rest => render_aux ctx q (some []) rest
  | none, c :: rest => c :: render_aux ctx q none rest
  | some acc, '}' :: rest =>
      (if acc.reverse = "context".toList then ctx.toList
       else if acc.reverse = "question".toList then q.toList
       else '{' :: (acc.reverse ++ ['}'])) ++ render_aux ctx q none rest
  | some acc, c :: rest => render_aux ctx q (some (c :: acc)) rest

/-- The full prompt sent to the generative model: the template of
`initialize_qa_chain` with `context` and `question` filled in. -/
def render_prompt (ctx q : String) : String :=
  String.mk (render_aux ctx q none prompt_template.toList)

/-- Modelled from the spec: the deterministic sliding-window splitter of
spec §4.1 step 2 — "walk the text in steps of `chunk_size − overlap`,
emitting a chunk of up to `chunk_size` characters at each step, stopping
when the remaining text is exhausted".  The repository configures the
third-party splitter with `chunk_size=1000, chunk_overlap=200`
(rag.py lines 23-27) but the splitting algorithm itself is library code not
present in the repository.  The first `ℕ` argument is recursion fuel; every
step with `overlap < chunk_size` consumes at least one character, so fuel
equal to the text length always suffices (`sliding_chunks` supplies it). -/
def sliding_chunks_aux (chunk_size overlap : ℕ) : ℕ → List Char → List (List Char)
  | _, [] => []
  | 0, _ :: _ => []
  | fuel + 1, c :: rest =>
      if (c :: rest).length ≤ chunk_size then [c :: rest]
      else (c :: rest).take chunk_size ::
        sliding_chunks_aux chunk_size overlap fuel ((c :: rest).drop (chunk_size - overlap))

/-- Modelled from the spec: split a text into sliding-window chunks
(spec §4.1 step 2, §3 Chunk invariant). -/
def sliding_chunks (chunk_size overlap : ℕ) (text : List Char) : List (List Char) :=
  sliding_chunks_aux chunk_size overlap text.length text

/-- The concatenation of the chunks "with overlaps de-duplicated"
(spec §8, chunking correctness): the first chunk followed by each later
chunk with its first `overlap` characters removed. -/
def dedup_concat (overlap : ℕ) : List (List Char) → List Char
  | [] => []
  | c :: rest => c ++ (rest.map (fun d => d.drop overlap)).flatten

/-- A chunk held by the vector store: its text, the provenance tag of the
document it came from, and its embedding vector (spec §3, Chunk).
Embedding vectors are modelled as lists of rationals. -/
structure Chunk where
  text : String
  source : String
  embedding : List ℚ
  deriving DecidableEq, Repr

/-- Modelled from the spec: the L2 retrieval distance between two embedding
vectors (spec §4.2, "a k-nearest-neighbor search by vector distance (cosine
or L2)"); squared L2, as third-party FAISS flat indexes report it. -/
def sq_dist (u v : List ℚ) : ℚ :=
  (u.zipWith (fun a b => (a - b) * (a - b)) v).sum

/-- Modelled from the spec: every indexed chunk tagged with its distance to
the query vector and its insertion position, sorted by ascending distance
with ties broken by insertion position (spec §4.2, "Returns the k closest
chunks in ascending-distance order ... Ties broken by original insertion
order (stable)"). -/
def ranked (index : List Chunk) (qv : List ℚ) : List (ℚ × ℕ × Chunk) :=
  List.insertionSort
    (fun a b => a.1 < b.1 ∨ (a.1 = b.1 ∧ a.2.1 ≤ b.2.1))
    (index.enum.map (fun p => (sq_dist p.2.embedding qv, p.1, p.2)))

/-- A retrieved chunk: the chunk's text and provenance, its insertion
position in the index, and its distance to the query (spec §3,
RetrievedChunk). -/
structure RetrievedChunk where
  pos : ℕ
  text : String
  source : String
  distance : ℚ
  deriving DecidableEq, Repr

/-- Modelled from the spec: `retrieve(query_vector, k)` — the `k` closest
chunks in ascending-distance order (spec §4.2).  The vector-store search
the repository delegates to FAISS is not repository code. -/
def retrieve (index : List Chunk) (qv : List ℚ) (k : ℕ) : List RetrievedChunk :=
  ((ranked index qv).take k).map (fun t => ⟨t.2.1, t.2.2.text, t.2.2.source, t.1⟩)

/-- Modelled from the spec: the vector store's `similarity_search_with_score`
as called by `get_relevant_context` (rag.py line 61): each retrieved chunk as
a langchain document together with its distance score. -/
def similarity_search_with_score (index : List Chunk) (embed_query : String → List ℚ)
    (query : String) (k : ℕ) : List (LCDocument × ℚ) :=
  (retrieve index (embed_query query) k).map
    (fun r => (⟨r.text, some r.source⟩, r.distance))

/-- The document-collection loop of `RAGEngine.initialize_vector_store`
(rag.py lines 41-45): walk the directory listing, load every file whose
name ends in `".pdf"`, and accumulate the loaded documents in order.  The
`PyPDFLoader` is passed explicitly as `loader`; a loader failure is a
raised exception, which — exactly as in the source, where the loop body has
no exception handler — aborts the whole loop and discards everything loaded
so far. -/
def documents_loop (loader : String → Except String (List LCDocument)) :
    List String → Except String (List LCDocument)
  | [] => .ok []
  | f :: fs =>
      if ends_with f ".pdf" then
        match loader f with
        | .error e => .error e
        | .ok docs =>
            match documents_loop loader fs with
            | .error e => .error e
            | .ok rest => .ok (docs ++ rest)
      else documents_loop loader fs

/-- `split_documents` (rag.py line 50) over the modelled splitter: each
document's text is split with `chunk_size=1000, overlap=200` and every chunk
keeps the provenance metadata of its document. -/
def split_documents (chunk_size overlap : ℕ) (docs : List LCDocument) : List LCDocument :=
  docs.flatMap (fun d =>
    (sliding_chunks chunk_size overlap d.page_content.toList).map
      (fun c => ⟨String.mk c, d.metadata_source⟩))

/-- Modelled from the spec: `FAISS.from_documents` (rag.py line 57) —
"Insert all (chunk, embedding) pairs into a nearest-neighbor index
structure" (spec §4.1 steps 3-4); an empty chunk list yields an empty index
("Returns empty index (not an error)", spec §4.1). -/
def from_documents (embed_docs : String → List ℚ) (texts : List LCDocument) : List Chunk :=
  texts.map (fun d =>
    { text := d.page_content
      source := d.metadata_source.getD "Unknown"
      embedding := embed_docs d.page_content })

/-- `RAGEngine.initialize_vector_store` (rag.py lines 35-57; the Lean name
drops the source prefix `initialize`): collect the documents of every
`.pdf` file of the listing, split them into chunks, and build the vector
store; a loader exception propagates out of the whole build. -/
def init_vector_store (loader : String → Except String (List LCDocument))
    (embed_docs : String → List ℚ) (files : List String) : Except String (List Chunk) :=
  match documents_loop loader files with
  | .error e => .error e
  | .ok docs => .ok (from_documents embed_docs (split_documents 1000 200 docs))

/-- Modelled from the spec: the `RetrievalQA` "stuff" chain built by
`initialize_qa_chain` (rag.py lines 101-111): retrieve the `k = 3` nearest
chunks for the query, interpolate their concatenated text and the question
into the prompt template, invoke the generative model once on the resulting
prompt, and return the model output together with the retrieved documents
(spec §4.2, `answer`).  The embedding and generation backends are the
explicit function arguments `embed_query` and `generate`. -/
def qa_chain_model (index : List Chunk) (embed_query : String → List ℚ)
    (generate : String → String) (query : String) : ChainResult :=
  let docs := retrieve index (embed_query query) 3
  { result := generate (render_prompt (String.join (docs.map (fun r => r.text))) query)
    source_documents := docs.map (fun r => ⟨r.text, some r.source⟩) }

/-- A topic produced by `perform_topic_modeling` (api.py lines 39-42). -/
structure Topic where
  name : String
  keywords : List String
  weight : ℚ
  deriving DecidableEq, Repr

/-- One element of the `sources` list of an `AnalysisResponse`
(api.py lines 33-37): a RAG source with the sentiment the endpoint adds. -/
structure ApiSource where
  text : String
  document : String
  confidence : ℚ
  sentiment : Option ℚ
  deriving DecidableEq, Repr

/-- The `AnalysisResponse` model of the API (api.py lines 44-49). -/
structure AnalysisResponse where
  answer : String
  sources : List ApiSource
  confidence : ℚ
  topics : Option (List Topic)
  sentiment : Option ℚ
  deriving DecidableEq, Repr

/-- The success path of the `/api/analyze` endpoint body `analyze_query`
(api.py lines 77-102).  The RAG engine's `process_query` is passed (already
applied to its chain) as `rag_process`.  The function `sentimentF` stands
for the third-party TextBlob polarity call, and `topicsF` for the
in-repository wrapper `perform_topic_modeling` (api.py lines 51-75), whose
core is a gensim `LdaModel` call; both are taken here as total functions,
i.e. this definition covers exactly the executions in which the enrichers
return normally.  The source's `except` branch (api.py lines 103-108),
which maps any exception raised inside the handler to an HTTP 500 error
response, is not modelled: theorems stated over this definition speak only
about successful responses.  On that success path the body mirrors the
source: run the RAG query, compute the answer sentiment, run topic modeling
over the source texts, attach a sentiment to every source, and assemble the
response with `confidence=result.get("confidence", 0.95)`
(api.py line 99). -/
def analyze_query (rag_process : String → Option (List String) → ProcessResult)
    (sentimentF : String → ℚ) (topicsF : List String → List Topic)
    (text : String) (filters : Option (List String)) : AnalysisResponse :=
  let result := rag_process text filters
  let sentiment := sentimentF result.answer
  let topics := topicsF (result.sources.map (fun s => s.text))
  { answer := result.answer
    sources := result.sources.map (fun s =>
      ⟨s.text, s.document, s.confidence, some (sentimentF s.text)⟩)
    confidence := result.confidence.getD ((95 : ℚ) / 100)
    topics := some topics
    sentiment := some sentiment }

/-! Concrete instances used by counterexamples and witnesses. -/

/-- A QA chain answering `"A"` with no source documents. -/
def chain_a : String → ChainResult := fun _ => ⟨"A", []⟩

/-- A QA chain answering `"B"` with no source documents. -/
def chain_b : String → ChainResult := fun _ => ⟨"B", []⟩

/-- A QA chain whose retrieved documents all come from `"a.pdf"`. -/
def chain_with_source : String → ChainResult :=
  fun _ => ⟨"ans", [⟨"chunk text", some "a.pdf"⟩]⟩

/-- A document loader that fails on `"bad.pdf"` and succeeds elsewhere. -/
def failing_loader : String → Except String (List LCDocument) :=
  fun f => if f = "bad.pdf" then .error "parse failure"
           else .ok [⟨"content", some f⟩]

/-- A document loader that always succeeds with no documents. -/
def plain_loader : String → Except String (List LCDocument) :=
  fun _ => .ok []

/-- An embedding backend mapping every text to the zero-dimensional vector. -/
def zero_embed : String → List ℚ := fun _ => []

/-- A four-chunk index with pairwise distinct one-dimensional embeddings and
one deliberate tie (two chunks share the embedding `[7]`). -/
def sample_index : List Chunk :=
  [⟨"alpha", "d1.pdf", [2]⟩, ⟨"beta", "d2.pdf", [7]⟩,
   ⟨"gamma", "d3.pdf", [1]⟩, ⟨"delta", "d4.pdf", [7]⟩]

/-- An embedding backend mapping every text to the origin of the
one-dimensional embedding space used by `sample_index`. -/
def origin_embed : String → List ℚ := fun _ => [0]

/-- A one-chunk index whose chunk sits at squared distance 4 from the query
`far_embed` produces, so `1 - distance = -3`. -/
def far_index : List Chunk := [⟨"far text", "far.pdf", [0]⟩]

/-- An embedding backend putting every query at distance 2 from the origin. -/
def far_embed : String → List ℚ := fun _ => [2]

/-! Chunking lemmas. -/

lemma sliding_chunks_aux_nil (cs ov f : ℕ) : sliding_chunks_aux cs ov f [] = [] := by
  cases f <;> rfl

lemma sliding_chunks_aux_congr (cs ov : ℕ) (hov : ov < cs) :
    ∀ f₁ f₂ (text : List Char), text.length ≤ f₁ → text.length ≤ f₂ →
      sliding_chunks_aux cs ov f₁ text = sliding_chunks_aux cs ov f₂ text := by
  intro f₁
  induction f₁ with
  | zero =>
      intro f₂ text h1 _
      have htext : text = [] := List.length_eq_zero.mp (Nat.le_zero.mp h1)
      subst htext
      simp [sliding_chunks_aux_nil]
  | succ n ih =>
      intro f₂ text h1 h2
      cases text with
      | nil => simp [sliding_chunks_aux_nil]
      | cons c rest =>
          cases f₂ with
          | zero => simp at h2
          | succ m =>
              simp only [sliding_chunks_aux]
              split
              · rfl
              · next hle =>
                  have hd : ((c :: rest).drop (cs - ov)).length = (c :: rest).length - (cs - ov) :=
                    List.length_drop _ _
                  exact congrArg _ (ih m ((c :: rest).drop (cs - ov))
                    (by rw [hd]; simp at h1 hle ⊢; omega)
                    (by rw [hd]; simp at h2 hle ⊢; omega))

lemma sliding_chunks_nil (cs ov : ℕ) : sliding_chunks cs ov [] = [] := rfl

lemma sliding_chunks_small (cs ov : ℕ) (text : List Char) (h1 : text ≠ [])
    (h2 : text.length ≤ cs) : sliding_chunks cs ov text = [text] := by
  cases text with
  | nil => exact absurd rfl h1
  | cons c rest =>
      have hfuel : (c :: rest).length = rest.length + 1 := rfl
      rw [sliding_chunks, hfuel]
      simp only [sliding_chunks_aux]
      rw [if_pos (by simpa using h2)]

lemma sliding_chunks_step (cs ov : ℕ) (hov : ov < cs) (text : List Char)
    (h : cs < text.length) :
    sliding_chunks cs ov text =
      text.take cs :: sliding_chunks cs ov (text.drop (cs - ov)) := by
  cases text with
  | nil => simp at h
  | cons c rest =>
      have hfuel : (c :: rest).length = rest.length + 1 := rfl
      rw [sliding_chunks, hfuel]
      simp only [sliding_chunks_aux]
      rw [if_neg (by omega : ¬ (c :: rest).length ≤ cs)]
      refine congrArg _ ?_
      rw [sliding_chunks]
      apply sliding_chunks_aux_congr cs ov hov
      · rw [List.length_drop]; simp at h ⊢; omega
      · exact le_rfl

lemma sliding_chunks_get_bound (cs ov : ℕ) (hov : ov < cs) :
    ∀ (n : ℕ) (text : List Char), text.length ≤ n →
      ∀ i (h : i < (sliding_chunks cs ov text).length),
        (sliding_chunks cs ov text).get ⟨i, h⟩ = (text.drop (i * (cs - ov))).take cs := by
  intro n
  induction n with
  | zero =>
      intro text hlen i h
      have htext : text = [] := List.length_eq_zero.mp (Nat.le_zero.mp hlen)
      subst htext
      simp [sliding_chunks_nil] at h
  | succ n ih =>
      intro text hlen i h
      by_cases hnil : text = []
      · subst hnil; simp [sliding_chunks_nil] at h
      · by_cases hsmall : text.length ≤ cs
        · have heq := sliding_chunks_small cs ov text hnil hsmall
          have hone : (sliding_chunks cs ov text).length = 1 := by
            rw [heq]; rfl
          have hi : i = 0 := by omega
          subst hi
          rw [List.get_of_eq heq ⟨0, h⟩]
          simp [List.take_of_length_le hsmall]
        · push_neg at hsmall
          have hstep := sliding_chunks_step cs ov hov text hsmall
          cases i with
          | zero =>
              rw [List.get_of_eq hstep ⟨0, h⟩]
              simp
          | succ i =>
              have h2 : i < (sliding_chunks cs ov (text.drop (cs - ov))).length := by
                have hh : i + 1 < (sliding_chunks cs ov text).length := h
                rw [hstep] at hh
                simpa using hh
              have hrec := ih (text.drop (cs - ov))
                (by rw [List.length_drop]; omega) i h2
              calc (sliding_chunks cs ov text).get ⟨i + 1, h⟩
                  = (sliding_chunks cs ov (text.drop (cs - ov))).get ⟨i, h2⟩ := by
                    rw [List.get_of_eq hstep ⟨i + 1, h⟩]
                    simp
                _ = (List.drop (i * (cs - ov)) (List.drop (cs - ov) text)).take cs := hrec
                _ = (List.drop ((i + 1) * (cs - ov)) text).take cs := by
                    rw [List.drop_drop, Nat.succ_mul, Nat.add_comm (i * (cs - ov))]

lemma sliding_chunks_ne_nil (cs ov : ℕ) (hov : ov < cs) (text : List Char)
    (h : text ≠ []) : sliding_chunks cs ov text ≠ [] := by
  by_cases hsmall : text.length ≤ cs
  · rw [sliding_chunks_small cs ov text h hsmall]; simp
  · push_neg at hsmall
    rw [sliding_chunks_step cs ov hov text hsmall]; simp

lemma dedup_concat_sliding_bound (cs ov : ℕ) (hov : ov < cs) :
    ∀ (n : ℕ) (text : List Char), text.length ≤ n →
      dedup_concat ov (sliding_chunks cs ov text) = text := by
  intro n
  induction n with
  | zero =>
      intro text hlen
      have htext : text = [] := List.length_eq_zero.mp (Nat.le_zero.mp hlen)
      subst htext
      rfl
  | succ n ih =>
      intro text hlen
      by_cases hnil : text = []
      · subst hnil; rfl
      · by_cases hsmall : text.length ≤ cs
        · rw [sliding_chunks_small cs ov text hnil hsmall]
          simp [dedup_concat]
        · push_neg at hsmall
          rw [sliding_chunks_step cs ov hov text hsmall]
          have hrest_len : (text.drop (cs - ov)).length = text.length - (cs - ov) :=
            List.length_drop _ _
          have hrest_ne : text.drop (cs - ov) ≠ [] := by
            intro hr
            rw [hr] at hrest_len
            simp at hrest_len
            omega
          obtain ⟨c1, cl, hcl⟩ :=
            List.exists_cons_of_ne_nil (sliding_chunks_ne_nil cs ov hov _ hrest_ne)
          have hIH : dedup_concat ov (sliding_chunks cs ov (text.drop (cs - ov))) =
              text.drop (cs - ov) := by
            apply ih
            rw [hrest_len]; omega
          rw [hcl] at hIH ⊢
          simp only [dedup_concat, List.map_cons, List.flatten_cons] at hIH ⊢
          have hb : 0 < (sliding_chunks cs ov (text.drop (cs - ov))).length := by
            rw [hcl]; simp
          have hc1 : c1 = (text.drop (cs - ov)).take cs := by
            have h0 := sliding_chunks_get_bound cs ov hov (text.drop (cs - ov)).length
              (text.drop (cs - ov)) le_rfl 0 hb
            have h1 := List.get_of_eq hcl ⟨0, hb⟩
            have h2 := h1.symm.trans h0
            simpa using h2
          have hc1len : ov ≤ c1.length := by
            rw [hc1, List.length_take]
            have : ov + 1 ≤ (text.drop (cs - ov)).length := by
              rw [hrest_len]; omega
            omega
          have key : c1.drop ov ++ (cl.map (fun d => d.drop ov)).flatten =
              (text.drop (cs - ov)).drop ov := by
            rw [← List.drop_append_of_le_length hc1len, hIH]
          rw [key, List.drop_drop]
          have hcs : cs - ov + ov = cs := by omega
          rw [hcs, List.take_append_drop]

/-- Claim C2: for every document text chunked with `overlap < chunk_size`
(the repository configures `chunk_size = 1000`, `overlap = 200`), the
sliding-window splitter is deterministic and satisfies: every chunk's length
is at most `chunk_size`; the `i`-th chunk is exactly the
`chunk_size`-character window starting at position
`i * (chunk_size − overlap)`, so consecutive chunk start positions differ by
exactly `chunk_size − overlap`; each chunk's first `overlap` characters
equal the previous chunk's characters from position `chunk_size − overlap`
on, so consecutive chunks share exactly `overlap` characters of content
(the final chunk may be shorter than the window); and the concatenation of
the chunks with the overlaps de-duplicated reconstructs the original text
exactly. -/
theorem chunking_sliding_window (cs ov : ℕ) (text : List Char) (hov : ov < cs) :
    (∀ c ∈ sliding_chunks cs ov text, c.length ≤ cs) ∧
    (∀ i (h : i < (sliding_chunks cs ov text).length),
        (sliding_chunks cs ov text).get ⟨i, h⟩ = (text.drop (i * (cs - ov))).take cs) ∧
    (∀ i (h : i + 1 < (sliding_chunks cs ov text).length),
        ((sliding_chunks cs ov text).get ⟨i + 1, h⟩).take ov =
          ((sliding_chunks cs ov text).get ⟨i, Nat.lt_of_succ_lt h⟩).drop (cs - ov)) ∧
    dedup_concat ov (sliding_chunks cs ov text) = text := by
  have hchar := sliding_chunks_get_bound cs ov hov text.length text le_rfl
  refine ⟨?_, hchar, ?_, dedup_concat_sliding_bound cs ov hov text.length text le_rfl⟩
  · intro c hc
    obtain ⟨⟨i, hi⟩, rfl⟩ := List.mem_iff_get.mp hc
    rw [hchar i hi]
    calc ((text.drop (i * (cs - ov))).take cs).length
        = cs ⊓ (text.drop (i * (cs - ov))).length := List.length_take _ _
      _ ≤ cs := min_le_left _ _
  · intro i h
    rw [hchar (i + 1) h, hchar i (Nat.lt_of_succ_lt h), List.take_take,
      List.drop_take, List.drop_drop, inf_eq_left.mpr hov.le, Nat.succ_mul]
    congr 1
    omega

/-- Witness for C2 at `chunk_size = 3`, `overlap = 1` on the text
`"abcdefgh"` (chunks `abc`, `cde`, `efg`, `gh`). -/
theorem chunking_sliding_window_witness :
    (1 : ℕ) < 3 ∧
    ((∀ c ∈ sliding_chunks 3 1 "abcdefgh".toList, c.length ≤ 3) ∧
    (∀ i (h : i < (sliding_chunks 3 1 "abcdefgh".toList).length),
        (sliding_chunks 3 1 "abcdefgh".toList).get ⟨i, h⟩ =
          ("abcdefgh".toList.drop (i * (3 - 1))).take 3) ∧
    (∀ i (h : i + 1 < (sliding_chunks 3 1 "abcdefgh".toList).length),
        ((sliding_chunks 3 1 "abcdefgh".toList).get ⟨i + 1, h⟩).take 1 =
          ((sliding_chunks 3 1 "abcdefgh".toList).get ⟨i, Nat.lt_of_succ_lt h⟩).drop (3 - 1)) ∧
    dedup_concat 1 (sliding_chunks 3 1 "abcdefgh".toList) = "abcdefgh".toList) :=
  ⟨by decide, chunking_sliding_window 3 1 "abcdefgh".toList (by decide)⟩

/-- Claim C3: retrieval returns its results sorted by non-decreasing
distance, with ties broken by the chunk's insertion position in the index,
and the ranking is monotone under truncation: the first `m` results of a
`retrieve` with budget `k ≥ m` are exactly `retrieve` with budget `m`
(in particular, the first 3 of `retrieve(q, 5)` equal `retrieve(q, 3)`);
consequently `get_relevant_context` returns its items with non-increasing
confidence. -/
theorem retrieve_sorted_truncation (index : List Chunk) (embed_query : String → List ℚ)
    (query : String) (m k : ℕ) (hmk : m ≤ k) :
    List.Pairwise (fun a b : RetrievedChunk =>
        a.distance < b.distance ∨ (a.distance = b.distance ∧ a.pos ≤ b.pos))
      (retrieve index (embed_query query) k) ∧
    (retrieve index (embed_query query) k).take m = retrieve index (embed_query query) m ∧
    List.Pairwise (fun a b : ContextItem => b.confidence ≤ a.confidence)
      (get_relevant_context (similarity_search_with_score index embed_query) query k) := by
  haveI ht : IsTotal (ℚ × ℕ × Chunk)
      (fun a b => a.1 < b.1 ∨ (a.1 = b.1 ∧ a.2.1 ≤ b.2.1)) := ⟨by
    intro a b
    rcases lt_trichotomy a.1 b.1 with h | h | h
    · exact Or.inl (Or.inl h)
    · rcases le_total a.2.1 b.2.1 with h2 | h2
      · exact Or.inl (Or.inr ⟨h, h2⟩)
      · exact Or.inr (Or.inr ⟨h.symm, h2⟩)
    · exact Or.inr (Or.inl h)⟩
  haveI htr : IsTrans (ℚ × ℕ × Chunk)
      (fun a b => a.1 < b.1 ∨ (a.1 = b.1 ∧ a.2.1 ≤ b.2.1)) := ⟨by
    intro a b c hab hbc
    rcases hab with h1 | ⟨e1, l1⟩ <;> rcases hbc with h2 | ⟨e2, l2⟩
    · exact Or.inl (h1.trans h2)
    · exact Or.inl (lt_of_lt_of_le h1 (le_of_eq e2))
    · exact Or.inl (lt_of_le_of_lt (le_of_eq e1) h2)
    · exact Or.inr ⟨e1.trans e2, l1.trans l2⟩⟩
  have hsorted : List.Sorted
      (fun a b : ℚ × ℕ × Chunk => a.1 < b.1 ∨ (a.1 = b.1 ∧ a.2.1 ≤ b.2.1))
      (ranked index (embed_query query)) :=
    List.sorted_insertionSort _ _
  have htake := List.Pairwise.sublist (List.take_sublist k _) hsorted
  have hpair : List.Pairwise (fun a b : RetrievedChunk =>
      a.distance < b.distance ∨ (a.distance = b.distance ∧ a.pos ≤ b.pos))
      (retrieve index (embed_query query) k) := by
    rw [retrieve, List.pairwise_map]
    exact htake
  refine ⟨hpair, ?_, ?_⟩
  · simp only [retrieve]
    rw [← List.map_take, List.take_take, inf_eq_left.mpr hmk]
  · rw [get_relevant_context, List.pairwise_map, similarity_search_with_score,
      List.pairwise_map]
    refine hpair.imp ?_
    intro a b hab
    rcases hab with h | ⟨e, _⟩
    · simpa using sub_le_sub_left h.le 1
    · simpa using sub_le_sub_left (le_of_eq e) 1

/-- Witness for C3 on `sample_index` with `m = 3`, `k = 5`. -/
theorem retrieve_sorted_truncation_witness :
    (3 : ℕ) ≤ 5 ∧
    (List.Pairwise (fun a b : RetrievedChunk =>
        a.distance < b.distance ∨ (a.distance = b.distance ∧ a.pos ≤ b.pos))
      (retrieve sample_index (origin_embed "what drove growth") 5) ∧
    (retrieve sample_index (origin_embed "what drove growth") 5).take 3 =
      retrieve sample_index (origin_embed "what drove growth") 3 ∧
    List.Pairwise (fun a b : ContextItem => b.confidence ≤ a.confidence)
      (get_relevant_context (similarity_search_with_score sample_index origin_embed)
        "what drove growth" 5)) :=
  ⟨by decide,
    retrieve_sorted_truncation sample_index origin_embed "what drove growth" 3 5 (by decide)⟩

/-- Claim C8 (amended): every item `get_relevant_context` returns carries
`confidence = 1 − distance`, with no clamping: the confidence lies in
`[0, 1]` exactly when the backend's distance lies in `[0, 1]`, and is
negative whenever the distance exceeds 1. -/
theorem confidence_one_minus_distance (search : String → ℕ → List (LCDocument × ℚ))
    (query : String) (k : ℕ) :
    List.Forall₂ (fun (item : ContextItem) (p : LCDocument × ℚ) =>
        item.confidence = 1 - p.2 ∧
        ((0 ≤ item.confidence ∧ item.confidence ≤ 1) ↔ (0 ≤ p.2 ∧ p.2 ≤ 1)))
      (get_relevant_context search query k) (search query k) := by
  rw [get_relevant_context]
  generalize search query k = l
  induction l with
  | nil => exact List.Forall₂.nil
  | cons p ps ih =>
      refine List.Forall₂.cons ⟨rfl, ?_⟩ ih
      show (0 ≤ 1 - p.2 ∧ 1 - p.2 ≤ 1) ↔ (0 ≤ p.2 ∧ p.2 ≤ 1)
      constructor
      · rintro ⟨h1, h2⟩
        exact ⟨by linarith, by linarith⟩
      · rintro ⟨h1, h2⟩
        exact ⟨by linarith, by linarith⟩

/-- Counterexample for C8 as stated: with the one-chunk index `far_index`
and a query embedded at squared L2 distance 4 from the chunk, the returned
confidence is `1 − 4 = −3`, which lies outside `[0, 1]`:
`get_relevant_context` performs no clamping. -/
theorem confidence_unclamped_counterexample :
    (get_relevant_context (similarity_search_with_score far_index far_embed) "q" 1).map
        (fun item => item.confidence) = [-3] ∧
    ¬ (0 ≤ (-3 : ℚ) ∧ (-3 : ℚ) ≤ 1) := by
  constructor
  · simp [get_relevant_context, similarity_search_with_score, retrieve, ranked, sq_dist,
      far_index, far_embed, List.insertionSort, List.orderedInsert, List.enum]
    norm_num
  · rintro ⟨h, -⟩
    norm_num at h

/-- Counterexample for C1 as stated: on the blank (whitespace-only) query
`" "`, `process_query` does not fail with any error — it returns a normal
answer dict — and its output depends on the QA-chain backend, so the
backend call is made rather than the query being rejected before it. -/
theorem blank_query_not_rejected_counterexample :
    is_blank " " = true ∧
    process_query chain_a " " none ≠ process_query chain_b " " none ∧
    (process_query chain_a " " none).answer = "A" := by
  exact ⟨by decide, by decide, rfl⟩

/-- Claim C1 (amended): `process_query` performs no blank-query validation:
on a blank query it does not fail — it returns a normal answer dict whose
answer is the QA chain's output on that very query and whose result carries
no error — and its result depends on the QA-chain backend, i.e. the backend
call is made. -/
theorem blank_query_processed (qa_chain : String → ChainResult) (query : String)
    (filters : Option (List String)) (hb : is_blank query = true) :
    (process_query qa_chain query filters).answer = (qa_chain query).result ∧
    (process_query qa_chain query filters).confidence = none ∧
    ∃ c1 c2 : String → ChainResult,
      process_query c1 query filters ≠ process_query c2 query filters := by
  refine ⟨rfl, rfl, chain_a, chain_b, ?_⟩
  intro h
  have h2 := congrArg ProcessResult.answer h
  simp [process_query, chain_a, chain_b] at h2

/-- Witness for C1 (amended) at the empty query. -/
theorem blank_query_processed_witness :
    is_blank "" = true ∧
    ((process_query chain_a "" none).answer = (chain_a "").result ∧
     (process_query chain_a "" none).confidence = none ∧
     ∃ c1 c2 : String → ChainResult,
       process_query c1 "" none ≠ process_query c2 "" none) :=
  ⟨by decide, blank_query_processed chain_a "" none (by decide)⟩

/-- Counterexample for C5 as stated: with a chain whose only retrieved chunk
comes from `"a.pdf"`, running `process_query` with a filter restricting to
`"b.pdf"` — a filter that excludes the top chunk — returns exactly the same
result as the unfiltered run, and the excluded document is still among the
returned sources. -/
theorem filters_ignored_counterexample :
    process_query chain_with_source "q" (some ["b.pdf"]) =
      process_query chain_with_source "q" none ∧
    "a.pdf" ∈ (process_query chain_with_source "q" (some ["b.pdf"])).sources.map
        (fun s => s.document) := by
  exact ⟨rfl, by decide⟩

/-- Claim C5 (amended): `process_query` accepts `filters` but ignores them
entirely: its result is identical for any two filter values, so the set of
retrieved chunks never differs from an unfiltered run, even when the filter
excludes retrieved chunks. -/
theorem filters_have_no_effect (qa_chain : String → ChainResult) (query : String)
    (f1 f2 : Option (List String)) :
    process_query qa_chain query f1 = process_query qa_chain query f2 := rfl

/-- If every `.pdf` file before `f` loads successfully and the loader fails
on `f` (a `.pdf` file), the document-collection loop propagates that
failure: the loop body of `initialize_vector_store` has no exception
handler. -/
lemma documents_loop_first_error (loader : String → Except String (List LCDocument))
    (f e : String) (hpdf : ends_with f ".pdf" = true) (herr : loader f = .error e) :
    ∀ files1 files2, (∀ g ∈ files1, ∃ ds, loader g = .ok ds) →
      documents_loop loader (files1 ++ f :: files2) = .error e := by
  intro files1
  induction files1 with
  | nil =>
      intro files2 _
      simp [documents_loop, hpdf, herr]
  | cons g gs ih =>
      intro files2 hok
      obtain ⟨ds, hds⟩ := hok g (List.mem_cons_self g gs)
      have hrec := ih files2 (fun x hx => hok x (List.mem_cons_of_mem _ hx))
      by_cases hg : ends_with g ".pdf" = true
      · simp [documents_loop, hg, hds, hrec]
      · simp [documents_loop, hg, hrec]

/-- Claim C7 (amended): a document parse failure is fatal to the whole
build, not per-document: if any eligible (`.pdf`) file's loader raises while
the eligible files before it load successfully, `init_vector_store`
propagates that very error and loads nothing — there is no
skip-and-continue. -/
theorem parse_failure_aborts_build (loader : String → Except String (List LCDocument))
    (embed_docs : String → List ℚ) (files1 files2 : List String) (f e : String)
    (hpdf : ends_with f ".pdf" = true) (herr : loader f = .error e)
    (hok : ∀ g ∈ files1, ∃ ds, loader g = .ok ds) :
    documents_loop loader (files1 ++ f :: files2) = .error e ∧
    init_vector_store loader embed_docs (files1 ++ f :: files2) = .error e := by
  have hloop := documents_loop_first_error loader f e hpdf herr files1 files2 hok
  refine ⟨hloop, ?_⟩
  rw [init_vector_store, hloop]

/-- Counterexample for C7 as stated: one corrupt document
(`"bad.pdf"`, whose loader raises) aborts the whole build even though the
other documents are readable — the build does not skip it and continue. -/
theorem parse_failure_aborts_build_counterexample :
    documents_loop failing_loader ["good.pdf", "bad.pdf", "more.pdf"] =
      .error "parse failure" ∧
    init_vector_store failing_loader zero_embed ["good.pdf", "bad.pdf", "more.pdf"] =
      .error "parse failure" := by
  exact ⟨rfl, rfl⟩

/-- Witness for C7 (amended) on the concrete failing loader. -/
theorem parse_failure_aborts_build_witness :
    (ends_with "bad.pdf" ".pdf" = true ∧
     failing_loader "bad.pdf" = .error "parse failure" ∧
     (∀ g ∈ ["good.pdf"], ∃ ds, failing_loader g = .ok ds)) ∧
    (documents_loop failing_loader (["good.pdf"] ++ "bad.pdf" :: ["more.pdf"]) =
        .error "parse failure" ∧
     init_vector_store failing_loader zero_embed
        (["good.pdf"] ++ "bad.pdf" :: ["more.pdf"]) = .error "parse failure") :=
  ⟨⟨by decide, rfl, fun g hg => ⟨[⟨"content", some "good.pdf"⟩], by
      have hgd : g = "good.pdf" := by simpa using hg
      subst hgd
      rfl⟩⟩,
    parse_failure_aborts_build failing_loader zero_embed ["good.pdf"] ["more.pdf"]
      "bad.pdf" "parse failure" (by decide) rfl
      (fun g hg => ⟨[⟨"content", some "good.pdf"⟩], by
        have hgd : g = "good.pdf" := by simpa using hg
        subst hgd
        rfl⟩)⟩

set_option maxRecDepth 40000 in
/-- Counterexample for C4 as stated: the prompt template contains no
instruction to "explicitly say so when the context lacks the needed
information rather than inventing facts" — none of the phrasings such an
instruction would use occur in it — while it does tell the model to
"Respond naturally" to general queries, inviting answers outside the
retrieved context. -/
theorem prompt_lacks_grounding_counterexample :
    contains_str prompt_template "lack" = false ∧
    contains_str prompt_template "explicitly say" = false ∧
    contains_str prompt_template "don\x27t know" = false ∧
    contains_str prompt_template "not know" = false ∧
    contains_str prompt_template "no information" = false ∧
    contains_str prompt_template "insufficient" = false ∧
    contains_str prompt_template "cannot" = false ∧
    contains_str prompt_template "not contain" = false ∧
    contains_str prompt_template "make up" = false ∧
    contains_str prompt_template "invent" = false ∧
    contains_str prompt_template "fabricat" = false ∧
    contains_str prompt_template "Respond naturally" = true := by
  decide

set_option maxRecDepth 40000 in
/-- Claim C4 (amended): the prompt interpolates exactly the two fields
`context` and `question`; the template instructs the generator to address
market-research questions "using the provided context", to "Cite specific
information from the sources" and to "Note any limitations in the available
information", but it contains no instruction to say so when the context
lacks the needed information or to refrain from inventing facts, and it
explicitly invites free general-conversation answers outside the context
("Respond naturally"). -/
theorem prompt_two_fields_and_instructions :
    template_variables prompt_template = ["context", "question"] ∧
    contains_str prompt_template "using the provided context" = true ∧
    contains_str prompt_template "Cite specific information from the sources" = true ∧
    contains_str prompt_template "Note any limitations in the available information" = true ∧
    contains_str prompt_template "Respond naturally" = true ∧
    contains_str prompt_template "lack" = false ∧
    contains_str prompt_template "don\x27t know" = false ∧
    contains_str prompt_template "no information" = false ∧
    contains_str prompt_template "invent" = false ∧
    contains_str prompt_template "make up" = false := by
  decide

/-- The document-collection loop over a listing with no `.pdf` file loads
nothing and succeeds. -/
lemma documents_loop_no_pdf (loader : String → Except String (List LCDocument)) :
    ∀ files, (∀ f ∈ files, ends_with f ".pdf" = false) →
      documents_loop loader files = .ok [] := by
  intro files
  induction files with
  | nil => intro _; rfl
  | cons g gs ih =>
      intro h
      have hg := h g (List.mem_cons_self g gs)
      have hrec := ih (fun x hx => h x (List.mem_cons_of_mem _ hx))
      simp [documents_loop, hg, hrec]

/-- Claim C6: building the index over a directory listing with zero eligible
(`.pdf`) documents succeeds and yields an empty index (zero chunks) rather
than an error, and every query against that empty index retrieves zero
chunks and still produces a well-formed answer: the generator's output on
the empty-context prompt, an empty source list, and no error. -/
theorem empty_corpus_empty_index (loader : String → Except String (List LCDocument))
    (embed_docs : String → List ℚ) (files : List String)
    (h : ∀ f ∈ files, ends_with f ".pdf" = false) :
    init_vector_store loader embed_docs files = .ok [] ∧
    (∀ qv k, retrieve [] qv k = []) ∧
    (∀ (embed_query : String → List ℚ) (generate : String → String) (q : String)
        (fl : Option (List String)),
      process_query (qa_chain_model [] embed_query generate) q fl =
        { answer := generate (render_prompt "" q), sources := [], confidence := none }) := by
  refine ⟨?_, fun qv k => by simp [retrieve, ranked], fun e g q fl => rfl⟩
  rw [init_vector_store, documents_loop_no_pdf loader files h]
  rfl

/-- Witness for C6 on a listing holding only non-PDF files. -/
theorem empty_corpus_empty_index_witness :
    (∀ f ∈ ["notes.txt", "readme.md"], ends_with f ".pdf" = false) ∧
    (init_vector_store plain_loader zero_embed ["notes.txt", "readme.md"] = .ok [] ∧
     (∀ qv k, retrieve [] qv k = []) ∧
     (∀ (embed_query : String → List ℚ) (generate : String → String) (q : String)
         (fl : Option (List String)),
       process_query (qa_chain_model [] embed_query generate) q fl =
         { answer := generate (render_prompt "" q), sources := [], confidence := none })) :=
  ⟨by decide,
    empty_corpus_empty_index plain_loader zero_embed ["notes.txt", "readme.md"] (by decide)⟩

/-- Claim C10: through `/api/analyze`, every returned source carries
confidence exactly 0.95 regardless of its retrieval distance —
`process_query` hardcodes 0.95 per source — and the overall response
confidence is exactly 0.95, because `process_query` returns no `confidence`
key and the endpoint's `result.get("confidence", 0.95)` falls back to the
default. -/
theorem confidence_always_default (qa_chain : String → ChainResult)
    (sentimentF : String → ℚ) (topicsF : List String → List Topic)
    (q : String) (fl : Option (List String)) :
    (process_query qa_chain q fl).confidence = none ∧
    (∀ s ∈ (analyze_query (process_query qa_chain) sentimentF topicsF q fl).sources,
        s.confidence = (95 : ℚ) / 100) ∧
    (analyze_query (process_query qa_chain) sentimentF topicsF q fl).confidence =
      (95 : ℚ) / 100 := by
  refine ⟨rfl, ?_, rfl⟩
  intro s hs
  simp only [analyze_query, process_query, List.mem_map] at hs
  obtain ⟨rs, ⟨doc, hdoc, rfl⟩, rfl⟩ := hs
  rfl

end RagSpec
